import Mathlib

/-!
# Verification of the taikun-mcp reconciliation and pagination core

Shallow embedding of the reconciliation pollers (`waitForProject`,
`waitForAppReady`, `waitForVirtualClusterReady`), the cursor-to-window
pagination adapter (`fetchKubernetesListItems`), the per-project server-add
mutex registry (`getProjectServerAddLock`) and the post-install section of
`installApp`, translated from the Go sources (`kubernetes.go`, `projects.go`,
`applications.go`, `virtualclusters.go`, `deploy.go`).

The remote backend is modelled as a scripted collaborator: a paginated list
endpoint is a list of responses consumed in fetch order, a status probe is a
function from the tick index to the probe's observation.  Time is discrete:
one unit is one second, a poller's `n`-th iteration happens at the instant
dictated by the source's ticker/sleep structure.
-/

set_option autoImplicit false

namespace TaikunMcp

/-! ## Pagination adapter (kubernetes.go, `fetchKubernetesListItems`)

A backend page (`kubernetesListPage` in the source): items of the page, the
`hasMore` flag and the optional continuation cursor. -/

structure KPage (T : Type) where
  data : List T
  hasMore : Bool
  nextCursor : Option String
  deriving Repr, DecidableEq

/-- Result of one run of the fetch loop.  `ok` is the Go return
`(allItems, lastResponse, nil)`; `transportError` is the Go early return of a
non-nil `err` from `fetchKubernetesListPage`; `sourceExhausted` is a model
artifact marking that the loop asked the scripted backend for more responses
than the script provides (the Go loop would still be running at that point).
Each constructor records how many page fetches were issued. -/
inductive FetchResult (T : Type) where
  | ok (items : List T) (fetches : Nat)
  | transportError (msg : String) (fetches : Nat)
  | sourceExhausted (fetches : Nat)
  deriving Repr, DecidableEq

/-- The offset-consuming step of the loop body (kubernetes.go:1112-1120):
drop the first `min (len items) remainingOffset` items and decrement the
remaining offset by the amount dropped. -/
def dropPhase {T : Type} (items : List T) (remainingOffset : Nat) :
    List T × Nat :=
  if 0 < remainingOffset then
    if items.length ≤ remainingOffset then ([], remainingOffset - items.length)
    else (items.drop remainingOffset, 0)
  else (items, remainingOffset)

/-- The truncation step of the loop body (kubernetes.go:1127-1129): keep at
most `needed` of the surviving items. -/
def limitPhase {T : Type} (items : List T) (needed : Nat) : List T :=
  if needed < items.length then items.take needed else items

/-- The `for` loop of `fetchKubernetesListItems` (kubernetes.go:1104-1143).
`pages` scripts the backend: the `k`-th fetch returns the `k`-th entry
(`Except.error` is a non-nil `err` from `fetchKubernetesListPage`).  The
cursor variable of the source is write-only once the response sequence is
fixed, so it is not threaded here; offsets and limits are `Nat` (the Go
`int32` arguments behave identically to `0` when negative, and the loop's
arithmetic never overflows for backend-sized pages). -/
def fetchLoop {T : Type} (remainingLimit : Nat) :
    List (Except String (KPage T)) → Nat → List T → Nat → FetchResult T
  | [], _, _, count => .sourceExhausted count
  | page? :: rest, remainingOffset, allItems, count =>
    match page? with
    | .error e => .transportError e (count + 1)
    | .ok page =>
      let dropped := dropPhase page.data remainingOffset
      if 0 < remainingLimit ∧ remainingLimit ≤ allItems.length then
        .ok allItems (count + 1)
      else
        let items :=
          if 0 < remainingLimit then
            limitPhase dropped.1 (remainingLimit - allItems.length)
          else dropped.1
        let newItems := allItems ++ items
        if 0 < remainingLimit ∧ remainingLimit ≤ newItems.length then
          .ok newItems (count + 1)
        else if page.hasMore = false ∨ page.nextCursor = none ∨
            page.nextCursor = some "" then
          .ok newItems (count + 1)
        else
          fetchLoop remainingLimit rest dropped.2 newItems (count + 1)

/-- `fetchKubernetesListItems` (kubernetes.go:1092-1146) against a scripted
backend.  The `perPage` value of the source (the limit, or 50 when the limit
is not positive) only parameterizes the backend request and is therefore
already encoded in the scripted responses. -/
def fetchKubernetesListItems {T : Type} (pages : List (Except String (KPage T)))
    (limit offset : Nat) : FetchResult T :=
  fetchLoop limit pages offset [] 0

/-- Concatenation of the item sequences of a page script. -/
def concatData {T : Type} : List (KPage T) → List T
  | [] => []
  | p :: rest => p.data ++ concatData rest

/-- A continuation cursor that actually continues: present and non-empty. -/
def cursorOkay : Option String → Bool
  | some c => c != ""
  | none => false

/-- A page script follows the normal backend protocol: every page before the
last reports `hasMore` with a non-empty cursor, and the last page reports
`hasMore = false`. -/
def wfPages {T : Type} : List (KPage T) → Bool
  | [] => false
  | [p] => !p.hasMore
  | p :: q :: rest => p.hasMore && cursorOkay p.nextCursor && wfPages (q :: rest)

theorem cursorOkay_iff (c? : Option String) :
    cursorOkay c? = true ↔ ∃ c, c? = some c ∧ c ≠ "" := by
  cases c? with
  | none => simp [cursorOkay]
  | some c => simp [cursorOkay]

theorem dropPhase_eq {T : Type} (items : List T) (off : Nat) :
    dropPhase items off = (items.drop off, off - items.length) := by
  unfold dropPhase
  rcases Nat.eq_zero_or_pos off with h | h
  · subst h; simp
  · by_cases h2 : items.length ≤ off
    · simp [h, h2, List.drop_eq_nil_of_le h2]
    · simp [h, h2, Nat.sub_eq_zero_of_le (Nat.le_of_not_le h2)]

theorem limitPhase_eq {T : Type} (items : List T) (needed : Nat) :
    limitPhase items needed = items.take needed := by
  unfold limitPhase
  by_cases h : needed < items.length
  · simp [h]
  · simp [h, List.take_of_length_le (Nat.le_of_not_lt h)]

/-- The two-page backend script of the specification's pagination examples:
first page `[1..50]` with `hasMore` and cursor `"a"`, second page `[51..70]`
final. -/
def specPageOne : KPage Nat := ⟨List.range' 1 50, true, some "a"⟩

/-- Second page of the specification's pagination examples. -/
def specPageTwo : KPage Nat := ⟨List.range' 51 20, false, none⟩

/-- One-step unfolding of `fetchLoop` on a successful page fetch. -/
theorem fetchLoop_cons_ok {T : Type} (remainingLimit : Nat) (page : KPage T)
    (rest : List (Except String (KPage T))) (remainingOffset : Nat)
    (allItems : List T) (count : Nat) :
    fetchLoop remainingLimit (.ok page :: rest) remainingOffset allItems
        count =
      (let dropped := dropPhase page.data remainingOffset
       if 0 < remainingLimit ∧ remainingLimit ≤ allItems.length then
         .ok allItems (count + 1)
       else
         let items :=
           if 0 < remainingLimit then
             limitPhase dropped.1 (remainingLimit - allItems.length)
           else dropped.1
         let newItems := allItems ++ items
         if 0 < remainingLimit ∧ remainingLimit ≤ newItems.length then
           .ok newItems (count + 1)
         else if page.hasMore = false ∨ page.nextCursor = none ∨
             page.nextCursor = some "" then
           .ok newItems (count + 1)
         else
           fetchLoop remainingLimit rest dropped.2 newItems (count + 1)) :=
  rfl

theorem fetchLoop_zero {T : Type} :
    ∀ (pages : List (KPage T)) (acc : List T) (off count : Nat),
    wfPages pages = true →
    ∃ n, fetchLoop 0 (pages.map Except.ok) off acc count =
      .ok (acc ++ (concatData pages).drop off) n := by
  intro pages
  induction pages with
  | nil => intro acc off count h; simp [wfPages] at h
  | cons p rest ih =>
    intro acc off count h
    cases rest with
    | nil =>
      have hm : p.hasMore = false := by simpa [wfPages] using h
      refine ⟨count + 1, ?_⟩
      rw [List.map_cons, List.map_nil, fetchLoop_cons_ok]
      simp [dropPhase_eq, hm, concatData]
    | cons q rest2 =>
      rw [wfPages] at h
      simp only [Bool.and_eq_true] at h
      obtain ⟨⟨hm, hc⟩, hwf⟩ := h
      obtain ⟨c, hcs, hcne⟩ := (cursorOkay_iff p.nextCursor).mp hc
      obtain ⟨n, hn⟩ := ih (acc ++ p.data.drop off) (off - p.data.length)
        (count + 1) hwf
      refine ⟨n, ?_⟩
      rw [List.map_cons, fetchLoop_cons_ok]
      simp only [dropPhase_eq, hm, hcs, Nat.lt_irrefl, false_and, if_false]
      rw [if_neg (by simp [hcne]), hn]
      have hcd : concatData (p :: q :: rest2) =
          p.data ++ concatData (q :: rest2) := rfl
      rw [hcd, List.drop_append_eq_append_drop]
      simp [List.append_assoc]

theorem fetchLoop_pos {T : Type} :
    ∀ (pages : List (KPage T)) (acc : List T) (off count limit : Nat),
    0 < limit → wfPages pages = true →
    ∃ n, fetchLoop limit (pages.map Except.ok) off acc count =
      .ok (acc ++ ((concatData pages).drop off).take (limit - acc.length))
        n := by
  intro pages
  induction pages with
  | nil => intro acc off count limit hl h; simp [wfPages] at h
  | cons p rest ih =>
    intro acc off count limit hl h
    by_cases hfull : limit ≤ acc.length
    · refine ⟨count + 1, ?_⟩
      rw [List.map_cons, fetchLoop_cons_ok]
      simp [hl, hfull, Nat.sub_eq_zero_of_le hfull]
    · have hlt : acc.length < limit := Nat.lt_of_not_le hfull
      by_cases hfill : limit - acc.length ≤ (p.data.drop off).length
      · -- the window fills on this page: the loop breaks after one fetch
        refine ⟨count + 1, ?_⟩
        have hg2 : limit ≤ (acc ++ (p.data.drop off).take
            (limit - acc.length)).length := by
          simp only [List.length_append, List.length_take]
          omega
        rw [List.map_cons, fetchLoop_cons_ok]
        simp only [dropPhase_eq, limitPhase_eq, hl, hfull, hg2, if_true,
          if_false, and_true, and_false, true_and, false_and, ite_true,
          ite_false, eq_self_iff_true]
        cases rest with
        | nil => simp [concatData]
        | cons q rest2 =>
          have hcd : concatData (p :: q :: rest2) =
              p.data ++ concatData (q :: rest2) := rfl
          rw [hcd, List.drop_append_eq_append_drop,
            List.take_append_eq_append_take, Nat.sub_eq_zero_of_le hfill]
          simp
      · -- this page does not fill the window
        have hdl : (p.data.drop off).length < limit - acc.length :=
          Nat.lt_of_not_le hfill
        have htake : (p.data.drop off).take (limit - acc.length) =
            p.data.drop off := List.take_of_length_le (Nat.le_of_lt hdl)
        have hg2 : ¬ limit ≤ (acc ++ (p.data.drop off).take
            (limit - acc.length)).length := by
          simp only [List.length_append, List.length_take]
          omega
        cases rest with
        | nil =>
          have hm : p.hasMore = false := by simpa [wfPages] using h
          refine ⟨count + 1, ?_⟩
          rw [List.map_cons, List.map_nil, fetchLoop_cons_ok]
          simp only [dropPhase_eq, limitPhase_eq, hl, hfull, hg2, if_true,
            if_false, and_true, and_false, true_and, false_and, ite_true,
            ite_false]
          rw [if_pos (by simp [hm]), htake]
          simp [concatData, htake]
        | cons q rest2 =>
          rw [wfPages] at h
          simp only [Bool.and_eq_true] at h
          obtain ⟨⟨hm, hc⟩, hwf⟩ := h
          obtain ⟨c, hcs, hcne⟩ := (cursorOkay_iff p.nextCursor).mp hc
          obtain ⟨n, hn⟩ := ih (acc ++ p.data.drop off) (off - p.data.length)
            (count + 1) limit hl hwf
          refine ⟨n, ?_⟩
          rw [List.map_cons, fetchLoop_cons_ok]
          simp only [dropPhase_eq, limitPhase_eq, hl, hfull, hg2, hm, hcs,
            if_true, if_false, and_true, and_false, true_and, false_and,
            ite_true, ite_false]
          rw [if_neg (by simp [hcne]), htake, hn]
          have harith : limit - (acc ++ p.data.drop off).length =
              (limit - acc.length) - (p.data.drop off).length := by
            simp only [List.length_append]
            omega
          have hcd : concatData (p :: q :: rest2) =
              p.data ++ concatData (q :: rest2) := rfl
          rw [hcd, List.drop_append_eq_append_drop,
            List.take_append_eq_append_take, htake, ← harith]
          simp [List.append_assoc]

/-- **C3**: over any backend page script that follows the normal cursor
protocol, `fetchKubernetesListItems` returns, without error, exactly the
window `[offset, offset+limit)` of the concatenated item sequence: all items
past the offset when the limit is `0`, at most `limit` items when the limit
is positive, and the empty list (still without error) when the offset is at
least the total item count. -/
theorem fetchKubernetesListItems_window {T : Type} (pages : List (KPage T))
    (limit offset : Nat) (h : wfPages pages = true) :
    ∃ n items,
      fetchKubernetesListItems (pages.map Except.ok) limit offset =
        .ok items n ∧
      items = (if limit = 0 then (concatData pages).drop offset
               else ((concatData pages).drop offset).take limit) ∧
      (0 < limit → items.length ≤ limit) ∧
      ((concatData pages).length ≤ offset → items = []) := by
  rcases Nat.eq_zero_or_pos limit with hz | hp
  · subst hz
    obtain ⟨n, hn⟩ := fetchLoop_zero pages [] offset 0 h
    refine ⟨n, (concatData pages).drop offset, ?_, by simp, by simp, ?_⟩
    · simpa [fetchKubernetesListItems] using hn
    · intro ho; simp [List.drop_eq_nil_of_le ho]
  · obtain ⟨n, hn⟩ := fetchLoop_pos pages [] offset 0 limit hp h
    refine ⟨n, ((concatData pages).drop offset).take limit, ?_, ?_, ?_, ?_⟩
    · simpa [fetchKubernetesListItems] using hn
    · simp [Nat.ne_of_gt hp]
    · intro _; exact List.length_take_le limit _
    · intro ho; simp [List.drop_eq_nil_of_le ho]

/-- Witness for `fetchKubernetesListItems_window` at the specification's
two-page script with window `{offset := 55, limit := 10}`. -/
theorem fetchKubernetesListItems_window_witness :
    wfPages [specPageOne, specPageTwo] = true ∧
    ∃ n items,
      fetchKubernetesListItems ([specPageOne, specPageTwo].map Except.ok)
        10 55 = .ok items n ∧
      items = (if 10 = 0 then (concatData [specPageOne, specPageTwo]).drop 55
               else ((concatData [specPageOne, specPageTwo]).drop 55).take 10) ∧
      (0 < 10 → items.length ≤ 10) ∧
      ((concatData [specPageOne, specPageTwo]).length ≤ 55 → items = []) :=
  ⟨by decide, fetchKubernetesListItems_window [specPageOne, specPageTwo]
    10 55 (by decide)⟩

/-- **C5**: on the specification's two-page script, window
`{offset := 10, limit := 30}` yields items `[11..40]` with exactly one page
fetch, and window `{offset := 55, limit := 10}` yields items `[56..65]` with
exactly two page fetches. -/
theorem fetchKubernetesListItems_spec_examples :
    fetchKubernetesListItems [.ok specPageOne, .ok specPageTwo] 30 10 =
      .ok (List.range' 11 30) 1 ∧
    fetchKubernetesListItems [.ok specPageOne, .ok specPageTwo] 10 55 =
      .ok (List.range' 56 10) 2 :=
  ⟨by decide, by decide⟩

/-- **C1**: behavior of `fetchKubernetesListItems` on protocol-violating
pages.  A page reporting `hasMore = true` with an empty cursor makes the loop
stop and return the partial result with no error (first conjunct); a page
whose cursor repeats the one just used is not detected: the loop keeps
issuing fetches with the same cursor (second conjunct: after three identical
`hasMore = true` responses with cursor `"a"` the loop is still fetching).
No transport error is raised in either situation. -/
theorem fetchKubernetesListItems_no_protocol_violation_check :
    fetchKubernetesListItems
        ([.ok ⟨[1, 2, 3], true, some ""⟩] : List (Except String (KPage Nat)))
        0 0 = .ok [1, 2, 3] 1 ∧
    fetchKubernetesListItems
        (List.replicate 3 (Except.ok (⟨[1], true, some "a"⟩ : KPage Nat)))
        0 0 = .sourceExhausted 3 :=
  ⟨by decide, by decide⟩

/-! ## Reconciliation pollers

Each wait function is embedded as a loop over a discrete clock.  A status
probe is scripted as a function from the tick index `n` to the observation
made on that tick; the loop also returns the number of probe calls it made.
Sleeps and timeouts are in seconds:

* `waitForProject` (projects.go:532-610) probes on a 30-second ticker, so its
  `n`-th iteration wakes at instant `(n+1)*30` and its timeout channel fires
  at instant `timeout`; when both are due at the same instant the model lets
  the ticker win (Go's `select` picks randomly, which is why the
  specification allows a ±1 probe-count tolerance);
* `waitForAppReady` (applications.go:599-650) and
  `waitForVirtualClusterReady` (virtualclusters.go:14-70) check
  `time.Since(start) > timeout` at the top of the loop and sleep 10 seconds
  at the bottom, so iteration `n` happens at instant `n*10`.
-/

/-- Terminal outcome of a wait loop.  `ready`/`deleted` are the success
returns, `notFound` is the "resource not found" failure return, `failed` is
the terminal failure-state return, `timedOut` is the timeout return, and
`transport` is any immediate error return for a failed probe call (non-nil
`err` or a non-2xx HTTP status that does not encode absence). -/
inductive WaitOutcome where
  | ready | deleted | notFound | failed | timedOut | transport
  deriving Repr, DecidableEq

/-- Three-way result of classifying one probe observation. -/
inductive Classification where
  | ready | failed | cont
  deriving Repr, DecidableEq

/-- Status sentinel of `taikuncore.PROJECTSTATUS_READY`. -/
def PROJECTSTATUS_READY : String := "Ready"

/-- Status sentinel of `taikuncore.PROJECTSTATUS_FAILURE`. -/
def PROJECTSTATUS_FAILURE : String := "Failure"

/-- Health sentinel of `taikuncore.PROJECTHEALTH_HEALTHY`. -/
def PROJECTHEALTH_HEALTHY : String := "Healthy"

/-- Health sentinel of `taikuncore.PROJECTHEALTH_UNHEALTHY`. -/
def PROJECTHEALTH_UNHEALTHY : String := "Unhealthy"

/-- Classifier of the project wait loop (projects.go:596-607): ready on
status `Ready` with health `Healthy`, failed on status `Failure` or health
`Unhealthy`, continue otherwise. -/
def classifyProject (status health : String) : Classification :=
  if status = PROJECTSTATUS_READY ∧ health = PROJECTHEALTH_HEALTHY then
    .ready
  else if status = PROJECTSTATUS_FAILURE ∨ health = PROJECTHEALTH_UNHEALTHY then
    .failed
  else .cont

/-- Classifier of the application wait loop (applications.go:636-644):
single status axis, ready on exactly `"Ready"`, failed on exactly
`"Failed"`, continue otherwise. -/
def classifyApp (status : String) : Classification :=
  if status = "Ready" then .ready
  else if status = "Failed" then .failed
  else .cont

/-- Classifier of the virtual-cluster wait loop (virtualclusters.go:51-59):
ready on status `"Ready"` with health `"Healthy"`, failed on status
`"Failed"` or health `"Unhealthy"`, continue otherwise. -/
def classifyVirtualCluster (status health : String) : Classification :=
  if status = "Ready" ∧ health = "Healthy" then .ready
  else if status = "Failed" ∨ health = "Unhealthy" then .failed
  else .cont

/-- One record of the filtered `ProjectsList` response. -/
structure ProjectRecord where
  status : String
  health : String
  deriving Repr, DecidableEq

/-- Observation of one `ProjectsList` probe call: either `Execute` returned
a non-nil error, or it returned an HTTP status code and a record list. -/
inductive ProjectProbe where
  | fail (msg : String)
  | resp (code : Nat) (data : List ProjectRecord)
  deriving Repr, DecidableEq

/-- The `for`/`select` loop of `waitForProject` (projects.go:554-609).
Iteration `n` handles the ticker tick at instant `(n + 1) * 30`; the timeout
channel fires at instant `timeout`, and fires first exactly when
`timeout < (n + 1) * 30`. -/
def waitForProjectLoop (probe : Nat → ProjectProbe) (timeout : Nat)
    (waitDeleted : Bool) (n : Nat) : WaitOutcome × Nat :=
  if _h : timeout < (n + 1) * 30 then (.timedOut, n)
  else
    match probe n with
    | .fail _ => (.transport, n + 1)
    | .resp code data =>
      if code < 200 ∨ 300 ≤ code then (.transport, n + 1)
      else
        match data with
        | [] => if waitDeleted then (.deleted, n + 1) else (.notFound, n + 1)
        | record :: _ =>
          if waitDeleted then waitForProjectLoop probe timeout waitDeleted (n + 1)
          else
            match classifyProject record.status record.health with
            | .ready => (.ready, n + 1)
            | .failed => (.failed, n + 1)
            | .cont => waitForProjectLoop probe timeout waitDeleted (n + 1)
  termination_by timeout + 30 - n * 30
  decreasing_by all_goals (simp_wf; omega)

/-- `waitForProject` (projects.go:532-610) with its timeout defaulting:
600 seconds for readiness, 300 for deletion, overridden by a positive
`args.Timeout`. -/
def waitForProject (probe : Nat → ProjectProbe) (argTimeout : Int)
    (waitDeleted : Bool) : WaitOutcome × Nat :=
  let timeout : Nat :=
    if 0 < argTimeout then argTimeout.toNat
    else if waitDeleted then 300 else 600
  waitForProjectLoop probe timeout waitDeleted 0

/-- Observation of one application probe call, the values `waitForAppReady`
reads from `fetchProjectAppStatus` (applications.go:616-629): the extracted
status string, the `found` flag, the HTTP status of the response (if any
response was received) and whether a non-nil error was returned. -/
structure AppProbe where
  status : String
  found : Bool
  respCode : Option Nat
  err : Bool
  deriving Repr, DecidableEq

/-- The transport-error test of `waitForAppReady` (applications.go:617):
a response was received whose status is outside 2xx and is not the 404 that
encodes absence. -/
def appTransportCheck (p : AppProbe) : Bool :=
  match p.respCode with
  | some code => (decide (code < 200) || decide (300 ≤ code)) && code != 404
  | none => false

/-- The `for` loop of `waitForAppReady` (applications.go:610-649).
Iteration `n` happens at instant `n * 10` (10-second sleep at the bottom);
the deadline check `time.Since(start) > timeout` is at the top. -/
def waitForAppReadyLoop (probe : Nat → AppProbe) (timeout : Nat)
    (waitDeleted : Bool) (n : Nat) : WaitOutcome × Nat :=
  if _h : timeout < n * 10 then (.timedOut, n)
  else
    let p := probe n
    if appTransportCheck p then (.transport, n + 1)
    else if p.err then (.transport, n + 1)
    else if p.found = false then
      if waitDeleted then (.deleted, n + 1) else (.notFound, n + 1)
    else if waitDeleted then waitForAppReadyLoop probe timeout waitDeleted (n + 1)
    else
      match classifyApp p.status with
      | .ready => (.ready, n + 1)
      | .failed => (.failed, n + 1)
      | .cont => waitForAppReadyLoop probe timeout waitDeleted (n + 1)
  termination_by timeout + 10 - n * 10
  decreasing_by all_goals (simp_wf; omega)

/-- `waitForAppReady` (applications.go:599-650) with its timeout defaulting:
60 seconds (30 when waiting for deletion) when `timeoutSeconds` is zero. -/
def waitForAppReady (probe : Nat → AppProbe) (timeoutSeconds : Nat)
    (waitDeleted : Bool) : WaitOutcome × Nat :=
  let timeout : Nat :=
    if timeoutSeconds = 0 then (if waitDeleted then 30 else 60)
    else timeoutSeconds
  waitForAppReadyLoop probe timeout waitDeleted 0

/-- One record of the `VirtualClusterList` response. -/
structure VCRecord where
  name : String
  status : String
  health : String
  deriving Repr, DecidableEq

/-- Observation of one `VirtualClusterList` probe call. -/
inductive VCProbe where
  | fail (msg : String)
  | resp (code : Nat) (data : List VCRecord)
  deriving Repr, DecidableEq

/-- The record scan of virtualclusters.go:42-64: the first record whose name
equals the requested cluster name, if any. -/
def findVirtualCluster (clusterName : String) (data : List VCRecord) :
    Option VCRecord :=
  data.find? (fun vc => vc.name == clusterName)

/-- The `for` loop of `waitForVirtualClusterReady` (virtualclusters.go:22-69).
Iteration `n` happens at instant `n * 10`; a probe whose response contains no
record matching the cluster name falls through to the sleep, i.e. the loop
continues. -/
def waitForVirtualClusterReadyLoop (probe : Nat → VCProbe)
    (clusterName : String) (timeout : Nat) (n : Nat) : WaitOutcome × Nat :=
  if _h : timeout < n * 10 then (.timedOut, n)
  else
    match probe n with
    | .fail _ => (.transport, n + 1)
    | .resp code data =>
      if code < 200 ∨ 300 ≤ code then (.transport, n + 1)
      else
        match findVirtualCluster clusterName data with
        | some vc =>
          match classifyVirtualCluster vc.status vc.health with
          | .ready => (.ready, n + 1)
          | .failed => (.failed, n + 1)
          | .cont => waitForVirtualClusterReadyLoop probe clusterName timeout (n + 1)
        | none => waitForVirtualClusterReadyLoop probe clusterName timeout (n + 1)
  termination_by timeout + 10 - n * 10
  decreasing_by all_goals (simp_wf; omega)

/-- `waitForVirtualClusterReady` (virtualclusters.go:14-70) with its timeout
defaulting: 900 seconds (15 minutes) when `timeoutSeconds` is zero. -/
def waitForVirtualClusterReady (probe : Nat → VCProbe) (clusterName : String)
    (timeoutSeconds : Nat) : WaitOutcome × Nat :=
  let timeout : Nat := if timeoutSeconds = 0 then 900 else timeoutSeconds
  waitForVirtualClusterReadyLoop probe clusterName timeout 0

/-- A project probe observation on which the project wait loop continues
to the next tick. -/
def projectProbeContinues (waitDeleted : Bool) (p : ProjectProbe) : Bool :=
  match p with
  | .fail _ => false
  | .resp code data =>
    !(decide (code < 200) || decide (300 ≤ code)) &&
    match data with
    | [] => false
    | record :: _ =>
      waitDeleted ||
        decide (classifyProject record.status record.health = .cont)

/-- An application probe observation on which the application wait loop
continues to the next tick. -/
def appProbeContinues (waitDeleted : Bool) (p : AppProbe) : Bool :=
  !appTransportCheck p && !p.err && p.found &&
    (waitDeleted || decide (classifyApp p.status = .cont))

/-- A virtual-cluster probe observation on which the virtual-cluster wait
loop continues to the next tick. -/
def vcProbeContinues (clusterName : String) (p : VCProbe) : Bool :=
  match p with
  | .fail _ => false
  | .resp code data =>
    !(decide (code < 200) || decide (300 ≤ code)) &&
    match findVirtualCluster clusterName data with
    | some vc => decide (classifyVirtualCluster vc.status vc.health = .cont)
    | none => true

/-- A virtual-cluster probe observation that the loop treats as a
transport-level error: a non-nil `Execute` error or a non-2xx status. -/
def vcProbeTransport (p : VCProbe) : Bool :=
  match p with
  | .fail _ => true
  | .resp code _ => decide (code < 200) || decide (300 ≤ code)

theorem waitForAppReadyLoop_step (probe : Nat → AppProbe) (timeout : Nat)
    (wd : Bool) (n : Nat) (h1 : n * 10 ≤ timeout)
    (hc : appProbeContinues wd (probe n) = true) :
    waitForAppReadyLoop probe timeout wd n =
      waitForAppReadyLoop probe timeout wd (n + 1) := by
  simp only [appProbeContinues, Bool.and_eq_true, Bool.not_eq_true',
    Bool.or_eq_true, decide_eq_true_eq] at hc
  obtain ⟨⟨⟨htc, herr⟩, hfound⟩, hlast⟩ := hc
  rw [waitForAppReadyLoop.eq_def, dif_neg (Nat.not_lt.mpr h1)]
  simp only [htc, herr, hfound, if_false, ite_false, Bool.false_eq_true]
  rcases hlast with hwd | hcl
  · simp [hwd]
  · simp [hcl, ite_self]

theorem waitForAppReadyLoop_skip (probe : Nat → AppProbe) (timeout : Nat)
    (wd : Bool) :
    ∀ (k n : Nat),
    (∀ j, j < k → (n + j) * 10 ≤ timeout ∧
      appProbeContinues wd (probe (n + j)) = true) →
    waitForAppReadyLoop probe timeout wd n =
      waitForAppReadyLoop probe timeout wd (n + k) := by
  intro k
  induction k with
  | zero => intro n _; rfl
  | succ k ih =>
    intro n h
    have h0 := h 0 (Nat.succ_pos k)
    rw [waitForAppReadyLoop_step probe timeout wd n (by simpa using h0.1)
      (by simpa using h0.2)]
    have hrest : ∀ j, j < k → (n + 1 + j) * 10 ≤ timeout ∧
        appProbeContinues wd (probe (n + 1 + j)) = true := by
      intro j hj
      have hh := h (j + 1) (by omega)
      have heq : n + (j + 1) = n + 1 + j := by omega
      rw [heq] at hh
      exact hh
    rw [ih (n + 1) hrest]
    congr 1
    omega

theorem waitForProjectLoop_step (probe : Nat → ProjectProbe) (timeout : Nat)
    (wd : Bool) (n : Nat) (h1 : (n + 1) * 30 ≤ timeout)
    (hc : projectProbeContinues wd (probe n) = true) :
    waitForProjectLoop probe timeout wd n =
      waitForProjectLoop probe timeout wd (n + 1) := by
  cases hp : probe n with
  | fail m => rw [hp] at hc; simp [projectProbeContinues] at hc
  | resp code data =>
    rw [hp] at hc
    cases data with
    | nil => simp [projectProbeContinues] at hc
    | cons record rest =>
      simp only [projectProbeContinues, Bool.and_eq_true, Bool.not_eq_true',
        Bool.or_eq_true, Bool.or_eq_false_iff, decide_eq_true_eq,
        decide_eq_false_iff_not] at hc
      obtain ⟨⟨hlow, hhigh⟩, hrest⟩ := hc
      rw [waitForProjectLoop.eq_def, dif_neg (Nat.not_lt.mpr h1), hp]
      dsimp only
      rw [if_neg (fun hcon => hcon.elim hlow hhigh)]
      rcases hrest with hwd | hcl
      · simp [hwd]
      · simp [hcl, ite_self]

theorem waitForProjectLoop_skip (probe : Nat → ProjectProbe) (timeout : Nat)
    (wd : Bool) :
    ∀ (k n : Nat),
    (∀ j, j < k → (n + j + 1) * 30 ≤ timeout ∧
      projectProbeContinues wd (probe (n + j)) = true) →
    waitForProjectLoop probe timeout wd n =
      waitForProjectLoop probe timeout wd (n + k) := by
  intro k
  induction k with
  | zero => intro n _; rfl
  | succ k ih =>
    intro n h
    have h0 := h 0 (Nat.succ_pos k)
    rw [waitForProjectLoop_step probe timeout wd n (by simpa using h0.1)
      (by simpa using h0.2)]
    have hrest : ∀ j, j < k → (n + 1 + j + 1) * 30 ≤ timeout ∧
        projectProbeContinues wd (probe (n + 1 + j)) = true := by
      intro j hj
      have hh := h (j + 1) (by omega)
      have heq : n + (j + 1) = n + 1 + j := by omega
      rw [heq] at hh
      exact hh
    rw [ih (n + 1) hrest]
    congr 1
    omega

theorem waitForVirtualClusterReadyLoop_step (probe : Nat → VCProbe)
    (clusterName : String) (timeout : Nat) (n : Nat) (h1 : n * 10 ≤ timeout)
    (hc : vcProbeContinues clusterName (probe n) = true) :
    waitForVirtualClusterReadyLoop probe clusterName timeout n =
      waitForVirtualClusterReadyLoop probe clusterName timeout (n + 1) := by
  cases hp : probe n with
  | fail m => rw [hp] at hc; simp [vcProbeContinues] at hc
  | resp code data =>
    rw [hp] at hc
    simp only [vcProbeContinues, Bool.and_eq_true, Bool.or_eq_false_iff,
      Bool.not_eq_true', decide_eq_false_iff_not] at hc
    obtain ⟨⟨hlow, hhigh⟩, hrest⟩ := hc
    rw [waitForVirtualClusterReadyLoop.eq_def, dif_neg (Nat.not_lt.mpr h1), hp]
    dsimp only
    rw [if_neg (fun hcon => hcon.elim hlow hhigh)]
    cases hf : findVirtualCluster clusterName data with
    | none => simp [hf]
    | some vc =>
      rw [hf] at hrest
      simp only [decide_eq_true_eq] at hrest
      simp [hf, hrest]

theorem waitForVirtualClusterReadyLoop_skip (probe : Nat → VCProbe)
    (clusterName : String) (timeout : Nat) :
    ∀ (k n : Nat),
    (∀ j, j < k → (n + j) * 10 ≤ timeout ∧
      vcProbeContinues clusterName (probe (n + j)) = true) →
    waitForVirtualClusterReadyLoop probe clusterName timeout n =
      waitForVirtualClusterReadyLoop probe clusterName timeout (n + k) := by
  intro k
  induction k with
  | zero => intro n _; rfl
  | succ k ih =>
    intro n h
    have h0 := h 0 (Nat.succ_pos k)
    rw [waitForVirtualClusterReadyLoop_step probe clusterName timeout n
      (by simpa using h0.1) (by simpa using h0.2)]
    have hrest : ∀ j, j < k → (n + 1 + j) * 10 ≤ timeout ∧
        vcProbeContinues clusterName (probe (n + 1 + j)) = true := by
      intro j hj
      have hh := h (j + 1) (by omega)
      have heq : n + (j + 1) = n + 1 + j := by omega
      rw [heq] at hh
      exact hh
    rw [ih (n + 1) hrest]
    congr 1
    omega

/-- **C6**: the classifiers are conservative.  Any status outside the exact
sentinel set (and, for the two-axis virtual-cluster kind, any health outside
its sentinel set) classifies as continue; only the exact success sentinels
produce `ready` and only the exact failure sentinels produce `failed`. -/
theorem classify_conservative (s h : String)
    (hs1 : s ≠ "Ready") (hs2 : s ≠ "Failed")
    (hh1 : h ≠ "Healthy") (hh2 : h ≠ "Unhealthy") :
    classifyApp s = .cont ∧ classifyVirtualCluster s h = .cont ∧
    classifyApp "Ready" = .ready ∧ classifyApp "Failed" = .failed ∧
    classifyVirtualCluster "Ready" "Healthy" = .ready ∧
    classifyVirtualCluster "Failed" h = .failed ∧
    classifyVirtualCluster s "Unhealthy" = .failed := by
  refine ⟨by simp [classifyApp, hs1, hs2], ?_, by decide, by decide,
    by decide, ?_, ?_⟩
  · simp [classifyVirtualCluster, hs1, hs2, hh1, hh2]
  · simp [classifyVirtualCluster]
  · simp [classifyVirtualCluster, hs1]

/-- Witness for `classify_conservative` at the non-sentinel pair
`("Updating", "Progressing")`. -/
theorem classify_conservative_witness :
    classifyApp "Updating" = .cont ∧
    classifyVirtualCluster "Updating" "Progressing" = .cont ∧
    classifyApp "Ready" = .ready ∧ classifyApp "Failed" = .failed ∧
    classifyVirtualCluster "Ready" "Healthy" = .ready ∧
    classifyVirtualCluster "Failed" "Progressing" = .failed ∧
    classifyVirtualCluster "Updating" "Unhealthy" = .failed :=
  classify_conservative "Updating" "Progressing"
    (by decide) (by decide) (by decide) (by decide)

/-- **C4**: when every probe observation classifies as continue, the project
and application wait loops time out: the project loop (30-second ticker,
timeout channel) makes exactly `⌊timeout/30⌋` probe calls, the application
loop (top-of-loop deadline check, 10-second sleep) makes exactly
`⌊timeout/10⌋ + 1` probe calls — both within the specification's ±1
tolerance of `⌊timeout/interval⌋` — and in both loops the last probe happens
no later than the deadline (last two conjuncts: probe `k` of the project
loop runs at instant `k * 30 ≤ timeout`, probe `k` of the application loop
at instant `k * 10`, so `(count - 1) * 10 ≤ timeout`). -/
theorem waitLoops_timeout_floor (pprobe : Nat → ProjectProbe)
    (aprobe : Nat → AppProbe) (timeoutP timeoutA : Nat) (wdP wdA : Bool)
    (hP : ∀ m, projectProbeContinues wdP (pprobe m) = true)
    (hA : ∀ m, appProbeContinues wdA (aprobe m) = true) :
    waitForProjectLoop pprobe timeoutP wdP 0 = (.timedOut, timeoutP / 30) ∧
    waitForAppReadyLoop aprobe timeoutA wdA 0 =
      (.timedOut, timeoutA / 10 + 1) ∧
    (waitForProjectLoop pprobe timeoutP wdP 0).2 * 30 ≤ timeoutP ∧
    ((waitForAppReadyLoop aprobe timeoutA wdA 0).2 - 1) * 10 ≤ timeoutA := by
  have hproj : waitForProjectLoop pprobe timeoutP wdP 0 =
      (.timedOut, timeoutP / 30) := by
    have hskip := waitForProjectLoop_skip pprobe timeoutP wdP (timeoutP / 30) 0
      (fun j hj => ⟨by omega, hP _⟩)
    simp only [Nat.zero_add] at hskip
    rw [hskip, waitForProjectLoop.eq_def, dif_pos (by omega)]
  have happ : waitForAppReadyLoop aprobe timeoutA wdA 0 =
      (.timedOut, timeoutA / 10 + 1) := by
    have hskip := waitForAppReadyLoop_skip aprobe timeoutA wdA
      (timeoutA / 10 + 1) 0 (fun j hj => ⟨by omega, hA _⟩)
    simp only [Nat.zero_add] at hskip
    rw [hskip, waitForAppReadyLoop.eq_def, dif_pos (by omega)]
  refine ⟨hproj, happ, ?_, ?_⟩
  · rw [hproj]; omega
  · rw [happ]; omega

/-- Witness for `waitLoops_timeout_floor`: constant "still converging"
probes with the default timeouts 600 and 60. -/
theorem waitLoops_timeout_floor_witness :
    waitForProjectLoop (fun _ => .resp 200 [⟨"Updating", "Healthy"⟩])
      600 false 0 = (.timedOut, 600 / 30) ∧
    waitForAppReadyLoop (fun _ => (⟨"Installing", true, some 200, false⟩ :
      AppProbe)) 60 false 0 = (.timedOut, 60 / 10 + 1) ∧
    (waitForProjectLoop (fun _ => .resp 200 [⟨"Updating", "Healthy"⟩])
      600 false 0).2 * 30 ≤ 600 ∧
    ((waitForAppReadyLoop (fun _ => (⟨"Installing", true, some 200, false⟩ :
      AppProbe)) 60 false 0).2 - 1) * 10 ≤ 60 :=
  waitLoops_timeout_floor _ _ 600 60 false false
    (fun _ => by decide) (fun _ => by decide)

/-- **C10**: a `waitForProject` call whose effective timeout is positive but
below the 30-second poll interval returns the timeout outcome with zero
probe calls: the timeout channel fires before the first ticker tick. -/
theorem waitForProject_short_timeout (probe : Nat → ProjectProbe)
    (argTimeout : Int) (wd : Bool) (h1 : 0 < argTimeout)
    (h2 : argTimeout < 30) :
    waitForProject probe argTimeout wd = (.timedOut, 0) := by
  simp only [waitForProject, h1, if_true]
  rw [waitForProjectLoop.eq_def, dif_pos (by omega)]

/-- Witness for `waitForProject_short_timeout` at a 10-second timeout. -/
theorem waitForProject_short_timeout_witness :
    waitForProject (fun _ => .resp 200 []) 10 false = (.timedOut, 0) :=
  waitForProject_short_timeout (fun _ => .resp 200 []) 10 false
    (by decide) (by decide)

/-- **C7**: a probe call that produces a transport-level error (a non-nil
error, or a non-2xx response code — with 404 excluded only in the
application loop, where it encodes absence) makes the wait return on that
very tick: after `k` continue ticks, a transport-failing probe `k` yields
the transport outcome with exactly `k + 1` probe calls, for both the
application and the virtual-cluster wait loops. -/
theorem waitTransport_immediate
    (aprobe : Nat → AppProbe) (timeoutA : Nat) (wdA : Bool) (kA : Nat)
    (vprobe : Nat → VCProbe) (clusterName : String) (timeoutV kV : Nat)
    (hAskip : ∀ j, j < kA → appProbeContinues wdA (aprobe j) = true)
    (hAdl : kA * 10 ≤ timeoutA)
    (hAterm : (appTransportCheck (aprobe kA) || (aprobe kA).err) = true)
    (hVskip : ∀ j, j < kV → vcProbeContinues clusterName (vprobe j) = true)
    (hVdl : kV * 10 ≤ timeoutV)
    (hVterm : vcProbeTransport (vprobe kV) = true) :
    waitForAppReadyLoop aprobe timeoutA wdA 0 = (.transport, kA + 1) ∧
    waitForVirtualClusterReadyLoop vprobe clusterName timeoutV 0 =
      (.transport, kV + 1) := by
  constructor
  · have hskip := waitForAppReadyLoop_skip aprobe timeoutA wdA kA 0
      (fun j hj => ⟨by omega, by simpa using hAskip j hj⟩)
    simp only [Nat.zero_add] at hskip
    rw [hskip, waitForAppReadyLoop.eq_def, dif_neg (Nat.not_lt.mpr hAdl)]
    by_cases htc : appTransportCheck (aprobe kA) = true
    · simp [htc]
    · have herr : (aprobe kA).err = true := by
        rw [Bool.or_eq_true] at hAterm
        rcases hAterm with hx | hx
        · exact absurd hx htc
        · exact hx
      simp [htc, herr]
  · have hskip := waitForVirtualClusterReadyLoop_skip vprobe clusterName
      timeoutV kV 0 (fun j hj => ⟨by omega, by simpa using hVskip j hj⟩)
    simp only [Nat.zero_add] at hskip
    rw [hskip, waitForVirtualClusterReadyLoop.eq_def,
      dif_neg (Nat.not_lt.mpr hVdl)]
    cases hp : vprobe kV with
    | fail m => rfl
    | resp code data =>
      rw [hp] at hVterm
      simp only [vcProbeTransport, Bool.or_eq_true, decide_eq_true_eq]
        at hVterm
      dsimp only
      rw [if_pos hVterm]

/-- Witness for `waitTransport_immediate`: an HTTP 500 application probe and
a failed virtual-cluster `Execute`, both on the first tick. -/
theorem waitTransport_immediate_witness :
    waitForAppReadyLoop (fun _ => (⟨"", true, some 500, false⟩ : AppProbe))
      60 false 0 = (.transport, 0 + 1) ∧
    waitForVirtualClusterReadyLoop (fun _ => .fail "connection refused")
      "vc1" 900 0 = (.transport, 0 + 1) :=
  waitTransport_immediate _ 60 false 0 _ "vc1" 900 0
    (fun j hj => absurd hj (Nat.not_lt_zero j)) (by decide) (by decide)
    (fun j hj => absurd hj (Nat.not_lt_zero j)) (by decide) (by decide)

/-- Probe script refuting C2 for the virtual-cluster wait: the first
response contains no record named `"vc1"`, every later response reports it
`Ready`/`Healthy`. -/
def vcAbsenceProbe : Nat → VCProbe := fun n =>
  if n = 0 then .resp 200 [⟨"other", "Ready", "Healthy"⟩]
  else .resp 200 [⟨"vc1", "Ready", "Healthy"⟩]

/-- Counterexample to **C2** as stated: in `waitForVirtualClusterReady`
(invoked with the only mode it has, waiting for readiness, i.e.
`waitForDeletion = false`), a probe that finds no matching record does not
make the operation return a Failed outcome immediately: on the script whose
first response lacks the requested cluster, the wait keeps polling and
returns the Ready outcome after a second probe call. -/
theorem waitForVirtualClusterReady_continues_on_absence :
    findVirtualCluster "vc1" [⟨"other", "Ready", "Healthy"⟩] = none ∧
    waitForVirtualClusterReady vcAbsenceProbe "vc1" 900 = (.ready, 2) := by
  refine ⟨by decide, ?_⟩
  have s0 : waitForVirtualClusterReadyLoop vcAbsenceProbe "vc1" 900 0 =
      waitForVirtualClusterReadyLoop vcAbsenceProbe "vc1" 900 1 := by
    rw [waitForVirtualClusterReadyLoop.eq_def, dif_neg (by norm_num)]
    norm_num [vcAbsenceProbe, findVirtualCluster]
    rw [if_neg (by decide)]
  have s1 : waitForVirtualClusterReadyLoop vcAbsenceProbe "vc1" 900 1 =
      (.ready, 2) := by
    rw [waitForVirtualClusterReadyLoop.eq_def, dif_neg (by norm_num)]
    norm_num [vcAbsenceProbe, findVirtualCluster, classifyVirtualCluster]
  show waitForVirtualClusterReadyLoop vcAbsenceProbe "vc1"
    (if (900 : Nat) = 0 then 900 else 900) 0 = (.ready, 2)
  rw [if_neg (by norm_num), s0, s1]

/-- **C2 amended**: for the project and application wait loops, a probe that
reports the resource absent (an empty 2xx project list; a
found-`false` application probe with no transport failure) ends the wait on
that very tick — `Deleted` when waiting for deletion, the "resource not
found" failure otherwise, with exactly `k + 1` probe calls after `k`
continue ticks.  The virtual-cluster wait has no deletion mode, and a 2xx
response with no record matching the cluster name is treated as "continue
polling", not as a failure (last conjunct: the loop at such a tick equals
the loop at the next tick). -/
theorem waitNotFound_per_kind
    (pprobe : Nat → ProjectProbe) (timeoutP : Nat) (wdP : Bool)
    (kP codeP : Nat)
    (aprobe : Nat → AppProbe) (timeoutA : Nat) (wdA : Bool) (kA : Nat)
    (vprobe : Nat → VCProbe) (clusterName : String) (timeoutV : Nat)
    (kV codeV : Nat) (dataV : List VCRecord)
    (hPskip : ∀ j, j < kP → projectProbeContinues wdP (pprobe j) = true)
    (hPdl : (kP + 1) * 30 ≤ timeoutP)
    (hPk : pprobe kP = .resp codeP [])
    (hPcode : 200 ≤ codeP ∧ codeP < 300)
    (hAskip : ∀ j, j < kA → appProbeContinues wdA (aprobe j) = true)
    (hAdl : kA * 10 ≤ timeoutA)
    (hAk : appTransportCheck (aprobe kA) = false ∧ (aprobe kA).err = false ∧
      (aprobe kA).found = false)
    (hVdl : kV * 10 ≤ timeoutV)
    (hVk : vprobe kV = .resp codeV dataV)
    (hVcode : 200 ≤ codeV ∧ codeV < 300)
    (hVnone : findVirtualCluster clusterName dataV = none) :
    waitForProjectLoop pprobe timeoutP wdP 0 =
      ((if wdP then .deleted else .notFound), kP + 1) ∧
    waitForAppReadyLoop aprobe timeoutA wdA 0 =
      ((if wdA then .deleted else .notFound), kA + 1) ∧
    waitForVirtualClusterReadyLoop vprobe clusterName timeoutV kV =
      waitForVirtualClusterReadyLoop vprobe clusterName timeoutV (kV + 1) := by
  refine ⟨?_, ?_, ?_⟩
  · have hskip := waitForProjectLoop_skip pprobe timeoutP wdP kP 0
      (fun j hj => ⟨by omega, by simpa using hPskip j hj⟩)
    simp only [Nat.zero_add] at hskip
    rw [hskip, waitForProjectLoop.eq_def, dif_neg (by omega), hPk]
    dsimp only
    rw [if_neg (by omega)]
    cases wdP <;> simp
  · have hskip := waitForAppReadyLoop_skip aprobe timeoutA wdA kA 0
      (fun j hj => ⟨by omega, by simpa using hAskip j hj⟩)
    simp only [Nat.zero_add] at hskip
    rw [hskip, waitForAppReadyLoop.eq_def, dif_neg (Nat.not_lt.mpr hAdl)]
    obtain ⟨htc, herr, hfound⟩ := hAk
    simp only [htc, herr, hfound, Bool.false_eq_true, if_false, ite_false]
    cases wdA <;> simp
  · rw [waitForVirtualClusterReadyLoop.eq_def,
      dif_neg (Nat.not_lt.mpr hVdl), hVk]
    dsimp only
    rw [if_neg (by omega), hVnone]

/-- Witness for `waitNotFound_per_kind`: the project probe sees one
converging record then an empty 2xx list, the application probe reports
found-`false` at once while waiting for deletion, and the virtual-cluster
probe returns a 2xx list without the requested name. -/
theorem waitNotFound_per_kind_witness :
    waitForProjectLoop
      (fun j => if j = 0 then .resp 200 [⟨"Updating", "Healthy"⟩]
                else .resp 200 []) 600 false 0 =
      ((if false then .deleted else .notFound), 1 + 1) ∧
    waitForAppReadyLoop (fun _ => (⟨"", false, some 200, false⟩ : AppProbe))
      30 true 0 = ((if true then .deleted else .notFound), 0 + 1) ∧
    waitForVirtualClusterReadyLoop
      (fun _ => .resp 200 [⟨"other", "Ready", "Healthy"⟩]) "vc1" 900 0 =
    waitForVirtualClusterReadyLoop
      (fun _ => .resp 200 [⟨"other", "Ready", "Healthy"⟩]) "vc1" 900 (0 + 1) :=
  waitNotFound_per_kind
    (fun j => if j = 0 then .resp 200 [⟨"Updating", "Healthy"⟩]
              else .resp 200 []) 600 false 1 200
    (fun _ => (⟨"", false, some 200, false⟩ : AppProbe)) 30 true 0
    (fun _ => .resp 200 [⟨"other", "Ready", "Healthy"⟩]) "vc1" 900 0 200
    [⟨"other", "Ready", "Healthy"⟩]
    (fun j hj => by
      have hj0 : j = 0 := by omega
      subst hj0
      decide)
    (by norm_num) (by decide) (by norm_num)
    (fun j hj => absurd hj (Nat.not_lt_zero j)) (by norm_num)
    (by decide) (by norm_num) (by decide) (by norm_num) (by decide)

/-! ## Resource mutex registry (deploy.go, `getProjectServerAddLock`)

The package-level map `projectServerAddLocks : map[int32]*sync.Mutex` and
its guard `projectServerAddLocksMu`.  A `*sync.Mutex` is identified by its
allocation: the registry state carries an association list from project id
to allocation index and the next fresh index.  `getProjectServerAddLock`
runs entirely under the registry-level lock (deploy.go:21-22), so each call
is one atomic step; the registry lock is released before the caller acquires
the per-key lock. -/

structure LockRegistry where
  locks : List (Int × Nat)
  nextId : Nat
  deriving Repr, DecidableEq

/-- The registry at process start: empty map, no mutex allocated yet. -/
def emptyLockRegistry : LockRegistry := ⟨[], 0⟩

/-- Go map lookup `projectServerAddLocks[projectId]`. -/
def lookupLock (projectId : Int) : List (Int × Nat) → Option Nat
  | [] => none
  | (k, m) :: rest =>
    if k = projectId then some m else lookupLock projectId rest

/-- `getProjectServerAddLock` (deploy.go:20-30): return the existing mutex
for the key, or allocate a fresh one and insert it. -/
def getProjectServerAddLock (r : LockRegistry) (projectId : Int) :
    Nat × LockRegistry :=
  match lookupLock projectId r.locks with
  | some lock => (lock, r)
  | none => (r.nextId, ⟨(projectId, r.nextId) :: r.locks, r.nextId + 1⟩)

/-- An arbitrary interleaved history of `getProjectServerAddLock` calls. -/
def runLockCalls (r : LockRegistry) : List Int → LockRegistry
  | [] => r
  | k :: ks => runLockCalls (getProjectServerAddLock r k).2 ks

/-- Registry invariant: every allocated index is below the fresh counter,
and no two entries share an index unless they share the key. -/
def LockRegistryInv (r : LockRegistry) : Prop :=
  (∀ p ∈ r.locks, p.2 < r.nextId) ∧
  (∀ p ∈ r.locks, ∀ q ∈ r.locks, p.2 = q.2 → p.1 = q.1)

theorem lookupLock_mem (projectId : Int) (m : Nat) :
    ∀ l : List (Int × Nat), lookupLock projectId l = some m →
      (projectId, m) ∈ l := by
  intro l
  induction l with
  | nil => intro h; simp [lookupLock] at h
  | cons p rest ih =>
    intro h
    rw [show p = (p.1, p.2) from rfl, lookupLock] at h
    by_cases hk : p.1 = projectId
    · rw [if_pos hk] at h
      have hm : p.2 = m := by simpa using h
      simp [← hk, ← hm]
    · rw [if_neg hk] at h
      exact List.mem_cons_of_mem _ (ih h)

theorem lockRegistryInv_empty : LockRegistryInv emptyLockRegistry := by
  constructor <;> simp [emptyLockRegistry]

theorem lockRegistryInv_get (r : LockRegistry) (k : Int)
    (h : LockRegistryInv r) :
    LockRegistryInv (getProjectServerAddLock r k).2 := by
  obtain ⟨hbound, hinj⟩ := h
  unfold getProjectServerAddLock
  cases hl : lookupLock k r.locks with
  | some m => exact ⟨hbound, hinj⟩
  | none =>
    constructor
    · intro p hp
      rcases List.mem_cons.mp hp with hp1 | hp2
      · subst hp1; simp
      · exact Nat.lt_succ_of_lt (hbound p hp2)
    · intro p hp q hq hpq
      rcases List.mem_cons.mp hp with hp1 | hp2 <;>
        rcases List.mem_cons.mp hq with hq1 | hq2
      · rw [hp1, hq1]
      · subst hp1
        exact absurd (hpq ▸ hbound q hq2) (Nat.lt_irrefl _)
      · subst hq1
        exact absurd (hpq ▸ hbound p hp2) (by simp)
      · exact hinj p hp2 q hq2 hpq

theorem lockRegistryInv_run (ks : List Int) :
    ∀ r : LockRegistry, LockRegistryInv r →
      LockRegistryInv (runLockCalls r ks) := by
  induction ks with
  | nil => intro r h; exact h
  | cons k ks ih =>
    intro r h
    exact ih _ (lockRegistryInv_get r k h)

theorem lookupLock_stable_get (r : LockRegistry) (k k2 : Int) (m : Nat)
    (h : lookupLock k r.locks = some m) :
    lookupLock k (getProjectServerAddLock r k2).2.locks = some m := by
  unfold getProjectServerAddLock
  cases hl : lookupLock k2 r.locks with
  | some m2 => exact h
  | none =>
    have hne : k2 ≠ k := by
      intro he
      rw [he, h] at hl
      exact Option.noConfusion hl
    simpa [lookupLock, hne] using h

theorem lookupLock_stable_run (ks : List Int) :
    ∀ (r : LockRegistry) (k : Int) (m : Nat),
      lookupLock k r.locks = some m →
      lookupLock k (runLockCalls r ks).locks = some m := by
  induction ks with
  | nil => intro r k m h; exact h
  | cons k2 ks ih =>
    intro r k m h
    exact ih _ k m (lookupLock_stable_get r k k2 m h)

theorem getProjectServerAddLock_fst_of_lookup (r : LockRegistry) (k : Int)
    (m : Nat) (h : lookupLock k r.locks = some m) :
    (getProjectServerAddLock r k).1 = m := by
  unfold getProjectServerAddLock
  rw [h]

theorem getProjectServerAddLock_creates (r : LockRegistry) (k : Int) :
    lookupLock k (getProjectServerAddLock r k).2.locks =
      some (getProjectServerAddLock r k).1 := by
  unfold getProjectServerAddLock
  cases hl : lookupLock k r.locks with
  | some m => exact hl
  | none => simp [lookupLock]

theorem getProjectServerAddLock_distinct (r : LockRegistry) (k k2 : Int)
    (hinv : LockRegistryInv r) (hne : k ≠ k2) :
    (getProjectServerAddLock r k).1 ≠
      (getProjectServerAddLock (getProjectServerAddLock r k).2 k2).1 := by
  obtain ⟨hbound, hinj⟩ := hinv
  cases h1 : lookupLock k r.locks with
  | some m1 =>
    have hr1 : getProjectServerAddLock r k = (m1, r) := by
      unfold getProjectServerAddLock
      rw [h1]
    rw [hr1]
    have hm1 : m1 < r.nextId := hbound _ (lookupLock_mem k m1 r.locks h1)
    cases h2 : lookupLock k2 r.locks with
    | some m2 =>
      have hr2 : getProjectServerAddLock r k2 = (m2, r) := by
        unfold getProjectServerAddLock
        rw [h2]
      rw [hr2]
      intro heq
      exact hne (hinj _ (lookupLock_mem k m1 r.locks h1)
        _ (lookupLock_mem k2 m2 r.locks h2) (by simpa using heq))
    | none =>
      have hr2 : (getProjectServerAddLock r k2).1 = r.nextId := by
        unfold getProjectServerAddLock
        rw [h2]
      rw [hr2]
      omega
  | none =>
    have hr1 : getProjectServerAddLock r k =
        (r.nextId, ⟨(k, r.nextId) :: r.locks, r.nextId + 1⟩) := by
      unfold getProjectServerAddLock
      rw [h1]
    rw [hr1]
    show r.nextId ≠ (getProjectServerAddLock
      (⟨(k, r.nextId) :: r.locks, r.nextId + 1⟩ : LockRegistry) k2).1
    have hlk : lookupLock k2 ((k, r.nextId) :: r.locks) =
        lookupLock k2 r.locks := by
      rw [lookupLock, if_neg hne]
    unfold getProjectServerAddLock
    simp only [hlk]
    cases h2 : lookupLock k2 r.locks with
    | some m2 =>
      have : m2 < r.nextId := hbound _ (lookupLock_mem k2 m2 r.locks h2)
      simp only []
      omega
    | none =>
      simp only []
      omega

/-- **C8**: the per-project server-add mutex registry, starting empty at
process start and mutated only by `getProjectServerAddLock` calls.  For any
call history: (i) once `getProjectServerAddLock` has returned a mutex for a
key, every later call for that key — with arbitrary calls for other keys in
between — returns the identical mutex; (ii) an entry once created is never
removed or replaced; (iii) calls with two distinct keys yield two distinct
mutexes. -/
theorem getProjectServerAddLock_registry (ks ks2 : List Int) (k k2 : Int)
    (m : Nat) (hne : k ≠ k2)
    (hm : lookupLock k (runLockCalls emptyLockRegistry ks).locks = some m) :
    (getProjectServerAddLock
        (runLockCalls
          (getProjectServerAddLock (runLockCalls emptyLockRegistry ks) k).2
          ks2) k).1 =
      (getProjectServerAddLock (runLockCalls emptyLockRegistry ks) k).1 ∧
    lookupLock k (runLockCalls (runLockCalls emptyLockRegistry ks) ks2).locks
      = some m ∧
    (getProjectServerAddLock (runLockCalls emptyLockRegistry ks) k).1 ≠
      (getProjectServerAddLock
        (getProjectServerAddLock (runLockCalls emptyLockRegistry ks) k).2
        k2).1 := by
  have hinv : LockRegistryInv (runLockCalls emptyLockRegistry ks) :=
    lockRegistryInv_run ks emptyLockRegistry lockRegistryInv_empty
  refine ⟨?_, ?_, ?_⟩
  · exact getProjectServerAddLock_fst_of_lookup _ k _
      (lookupLock_stable_run ks2 _ k _
        (getProjectServerAddLock_creates _ k))
  · exact lookupLock_stable_run ks2 _ k m hm
  · exact getProjectServerAddLock_distinct _ k k2 hinv hne

/-- Witness for `getProjectServerAddLock_registry`: history `[5, 3]`, later
calls `[7, 5]`, keys `5 ≠ 3`. -/
theorem getProjectServerAddLock_registry_witness :
    (getProjectServerAddLock
        (runLockCalls
          (getProjectServerAddLock (runLockCalls emptyLockRegistry [5, 3]) 5).2
          [7, 5]) 5).1 =
      (getProjectServerAddLock (runLockCalls emptyLockRegistry [5, 3]) 5).1 ∧
    lookupLock 5
      (runLockCalls (runLockCalls emptyLockRegistry [5, 3]) [7, 5]).locks
      = some 0 ∧
    (getProjectServerAddLock (runLockCalls emptyLockRegistry [5, 3]) 5).1 ≠
      (getProjectServerAddLock
        (getProjectServerAddLock (runLockCalls emptyLockRegistry [5, 3]) 5).2
        3).1 :=
  getProjectServerAddLock_registry [5, 3] [7, 5] 5 3 0
    (by decide) (by decide)

/-! ## installApp post-install section (applications.go:759-849) -/

/-- One entry of the `ProjectappList` lookup response; `nspace` models the
Go field `Namespace` (a reserved word in Lean). -/
structure AppListEntry where
  name : String
  nspace : String
  id : Int
  deriving Repr, DecidableEq

/-- The search loop of applications.go:768-777: `projectAppID` starts at 0
and is set to the id of the first entry whose name and namespace both
match. -/
def findInstalledAppID (name nspace : String) :
    List AppListEntry → Int
  | [] => 0
  | app :: rest =>
    if app.name = name ∧ app.nspace = nspace then app.id
    else findInstalledAppID name nspace rest

/-- The fields of `InstallAppResponse` (applications.go:808-817) that the
claims are about. -/
structure InstallAppResponse where
  success : Bool
  projectAppID : Int
  status : String
  deriving Repr, DecidableEq

/-- Result of the post-install tail of `installApp`: either the
`ErrorResponse` produced when the readiness wait fails, or the JSON-encoded
`InstallAppResponse`. -/
inductive InstallResult where
  | errorResp (msg : String)
  | ok (resp : InstallAppResponse)
  deriving Repr, DecidableEq

/-- The post-install tail of `installApp` (applications.go:759-849), from
the lookup of the new application's id to the JSON response.  `appList` is
the `ProjectappList` response (`none` models a non-nil list error, in which
case the Go code skips the search loop and `projectAppID` stays 0);
`waitOutcome` scripts what `waitForAppReady` would return if invoked.  The
second component of the result records whether the readiness poll was
invoked at all. -/
def installAppAfterCreate (waitForReady : Bool) (name nspace : String)
    (appList : Option (List AppListEntry))
    (waitOutcome : WaitOutcome × Nat) : InstallResult × Bool :=
  let projectAppID : Int :=
    if waitForReady then
      match appList with
      | some entries => findInstalledAppID name nspace entries
      | none => 0
    else 0
  if waitForReady ∧ 0 < projectAppID then
    match waitOutcome.1 with
    | .ready => (.ok ⟨true, projectAppID, "ready"⟩, true)
    | _ => (.errorResp "installation initiated but failed during wait", true)
  else
    (.ok ⟨true, projectAppID,
      if waitForReady then "ready" else "initiated"⟩, false)

/-- **C9**: when `installApp` runs with `WaitForReady = true` and the
post-install list lookup contains no entry matching both the requested name
and namespace, `projectAppID` stays 0, the readiness poll is never invoked
(second component `false`, and the scripted `waitOutcome` is irrelevant),
yet the response reports `Success = true` and `Status = "ready"`. -/
theorem installApp_ready_without_poll (name nspace : String)
    (entries : List AppListEntry) (waitOutcome : WaitOutcome × Nat)
    (hnomatch : ∀ app ∈ entries,
      ¬(app.name = name ∧ app.nspace = nspace)) :
    installAppAfterCreate true name nspace (some entries) waitOutcome =
      (.ok ⟨true, 0, "ready"⟩, false) := by
  have hid : findInstalledAppID name nspace entries = 0 := by
    induction entries with
    | nil => rfl
    | cons app rest ih =>
      rw [findInstalledAppID,
        if_neg (hnomatch app (List.mem_cons_self app rest))]
      exact ih (fun a ha => hnomatch a (List.mem_cons_of_mem _ ha))
  simp [installAppAfterCreate, hid]

/-- Witness for `installApp_ready_without_poll`: the list holds only an
unrelated application, and the scripted wait outcome is a failure — which
the result ignores, because the poll is never invoked. -/
theorem installApp_ready_without_poll_witness :
    installAppAfterCreate true "myapp" "default"
      (some [⟨"other-app", "default", 7⟩]) (.failed, 3) =
      (.ok ⟨true, 0, "ready"⟩, false) :=
  installApp_ready_without_poll "myapp" "default"
    [⟨"other-app", "default", 7⟩] (.failed, 3) (by decide)

end TaikunMcp
